import Mathlib

/-!
Verification of the doubly-linked-list ADT of jcoffa/c-linked-list.

The repository ships only the header src/include/LinkedList.h (structure
layouts, function declarations and their documentation); the .c file with the
function bodies is absent from the sources.  Every operation below is
therefore modelled from the specification, faithful to its words and to the
header's declarations and doc comments.

Modelling conventions:
  - The chain of ListNode structs is represented by the sequence of element
    handles in head-to-tail order (field nodes); the previous/next pointers
    of a node are its position in that sequence, and the head/tail pointers
    of the list head are the first/last entries of the sequence (absent when
    the sequence is empty).
  - The C int field length is kept as a separate Int field, updated by the
    operations exactly as the spec describes, so that its agreement with the
    chain is a provable invariant rather than true by construction.
  - malloc success/failure is an explicit Bool argument (allocOk) to the
    operations that allocate.
  - Operations that may pass elements to the destroy behavior return, next
    to the new list state, the sequence of elements passed to destroy.
  - Element handles are values of an arbitrary type.  The three behaviors
    bound at construction (printData, deleteData, compare) are fields of the
    list head, as in the C struct listHead.
-/

namespace LinkedList

/-- Modelled from the spec: a node of the doubly linked chain (C struct
listNode).  The previous/next pointers are represented by the node's
position in the list head's element sequence, so only the element handle is
stored here. -/
structure ListNode (α : Type) where
  data : α

/-- Modelled from the spec: the list metadata head (C struct listHead).
Field nodes is the chain of element handles in head-to-tail order (the
head/tail pointers of the C struct are its first and last entries); length
is the C int counter; deleteData, compare and printData are the three
behavior function pointers bound at construction. -/
structure ListHead (α : Type) where
  nodes : List α
  length : Int
  deleteData : α → Unit
  compare : α → α → Int
  printData : α → String

/-- The element referenced by the head pointer (none when the list is
empty, i.e. the head pointer is NULL). -/
def ListHead.headData {α : Type} (l : ListHead α) : Option α :=
  l.nodes.head?

/-- The element referenced by the tail pointer (none when the list is
empty, i.e. the tail pointer is NULL). -/
def ListHead.tailData {α : Type} (l : ListHead α) : Option α :=
  l.nodes.getLast?

/-- Modelled from the spec: the iterator (C struct iter).  The cursor is
the suffix of the chain starting at the node the cursor references; the
empty suffix is the exhausted (NULL) cursor. -/
structure ListIterator (α : Type) where
  current : List α

/-- Modelled from the spec: initializeListNode allocates a node wrapping the
given element handle and returns NULL (none) when allocation fails. -/
def initializeListNode {α : Type} (allocOk : Bool) (data : α) :
    Option (ListNode α) :=
  if allocOk then some ⟨data⟩ else none

/-- The empty list with the three behaviors bound. -/
def emptyList {α : Type} (printFunction : α → String)
    (deleteFunction : α → Unit) (compareFunction : α → α → Int) :
    ListHead α :=
  ⟨[], 0, deleteFunction, compareFunction, printFunction⟩

/-- Modelled from the spec: initializeList returns a new empty list with the
three behaviors bound, or NULL (none) when allocation fails. -/
def initializeList {α : Type} (allocOk : Bool) (printFunction : α → String)
    (deleteFunction : α → Unit) (compareFunction : α → α → Int) :
    Option (ListHead α) :=
  if allocOk then some (emptyList printFunction deleteFunction compareFunction)
  else none

/-- Modelled from the spec: insertBack creates a node wrapping the element
and links it at the back, incrementing length; when node allocation fails
the list is left unchanged. -/
def insertBack {α : Type} (allocOk : Bool) (list : ListHead α)
    (toBeAdded : α) : ListHead α :=
  match initializeListNode allocOk toBeAdded with
  | none => list
  | some node =>
      ⟨list.nodes ++ [node.data], list.length + 1,
       list.deleteData, list.compare, list.printData⟩

/-- Modelled from the spec: insertFront creates a node wrapping the element
and links it at the front, incrementing length; when node allocation fails
the list is left unchanged. -/
def insertFront {α : Type} (allocOk : Bool) (list : ListHead α)
    (toBeAdded : α) : ListHead α :=
  match initializeListNode allocOk toBeAdded with
  | none => list
  | some node =>
      ⟨node.data :: list.nodes, list.length + 1,
       list.deleteData, list.compare, list.printData⟩

/-- Modelled from the spec: getFromFront peeks at the element at the head.
The pair returns the peeked element (none on an empty list) together with
the list state after the call, recording that the call does not mutate the
list. -/
def getFromFront {α : Type} (list : ListHead α) : Option α × ListHead α :=
  match list.nodes with
  | [] => (none, list)
  | x :: _ => (some x, list)

/-- Modelled from the spec: getFromBack peeks at the element at the tail.
The pair returns the peeked element (none on an empty list) together with
the list state after the call, recording that the call does not mutate the
list. -/
def getFromBack {α : Type} (list : ListHead α) : Option α × ListHead α :=
  (list.nodes.getLast?, list)

/-- Helper for deleteDataFromList: removes the first element of the chain
that the comparator considers equal (compare = 0) to the target, returning
the removed element (none when no match) and the remaining chain. -/
def removeFirstAux {α : Type} (cmp : α → α → Int) (target : α) :
    List α → Option α × List α
  | [] => (none, [])
  | x :: xs =>
      if cmp target x = 0 then (some x, xs)
      else
        let r := removeFirstAux cmp target xs
        (r.1, x :: r.2)

/-- Result of deleteDataFromList: the removed element handle returned to the
caller (none on no match), the list state after the call, and the sequence
of elements passed to the destroy behavior during the call. -/
structure DeleteResult (α : Type) where
  removed : Option α
  list : ListHead α
  destroyed : List α

/-- Modelled from the spec: deleteDataFromList locates the first node whose
element compares equal (compare = 0) to the given element, unlinks it,
decrements length and returns the element handle to the caller without
passing it to the destroy behavior; it returns none and leaves the list
unchanged when no match exists or the list is empty. -/
def deleteDataFromList {α : Type} (list : ListHead α) (toBeDeleted : α) :
    DeleteResult α :=
  let r := removeFirstAux list.compare toBeDeleted list.nodes
  match r.1 with
  | none => ⟨none, list, []⟩
  | some x =>
      ⟨some x, ⟨r.2, list.length - 1,
                list.deleteData, list.compare, list.printData⟩, []⟩

/-- Helper for insertSorted: traverses from the front and inserts the new
element immediately before the first existing element x with
cmp toBeAdded x < 0, appending at the back when no such element exists. -/
def insertSortedAux {α : Type} (cmp : α → α → Int) (a : α) :
    List α → List α
  | [] => [a]
  | x :: xs =>
      if cmp a x < 0 then a :: x :: xs
      else x :: insertSortedAux cmp a xs

/-- Modelled from the spec: insertSorted creates a node wrapping the element
and places it before the first existing element that the new element
compares strictly less than, appending at the back otherwise; length is
incremented.  When node allocation fails the list is left unchanged. -/
def insertSorted {α : Type} (allocOk : Bool) (list : ListHead α)
    (toBeAdded : α) : ListHead α :=
  match initializeListNode allocOk toBeAdded with
  | none => list
  | some node =>
      ⟨insertSortedAux list.compare node.data list.nodes, list.length + 1,
       list.deleteData, list.compare, list.printData⟩

/-- Result of clearList: the list state after the call and the sequence of
elements passed to the destroy behavior during the call. -/
structure ClearResult (α : Type) where
  list : ListHead α
  destroyed : List α

/-- Modelled from the spec: clearList removes every node, passing each
node's element to the destroy behavior in head-to-tail order, and leaves
the List struct intact and empty (length 0, both end pointers NULL). -/
def clearList {α : Type} (list : ListHead α) : ClearResult α :=
  ⟨⟨[], 0, list.deleteData, list.compare, list.printData⟩, list.nodes⟩

/-- Modelled from the spec: createIterator returns an iterator whose cursor
starts at the first node (empty cursor when the list is empty). -/
def createIterator {α : Type} (list : ListHead α) : ListIterator α :=
  ⟨list.nodes⟩

/-- Modelled from the spec: nextElement returns the element at the cursor
and advances the cursor, or returns none and leaves the cursor empty when
the cursor is already exhausted.  The pair is (returned element, iterator
state after the call). -/
def nextElement {α : Type} (iter : ListIterator α) :
    Option α × ListIterator α :=
  match iter.current with
  | [] => (none, ⟨[]⟩)
  | x :: xs => (some x, ⟨xs⟩)

/-- Calls nextElement up to fuel times, collecting the elements returned in
order and stopping early when nextElement reports exhaustion; returns the
collected elements together with the final iterator state. -/
def drainFuel {α : Type} : Nat → ListIterator α → List α × ListIterator α
  | 0, it => ([], it)
  | Nat.succ n, it =>
      match nextElement it with
      | (none, it2) => ([], it2)
      | (some x, it2) =>
          let r := drainFuel n it2
          (x :: r.1, r.2)

/-- Helper for toString: the loop over the iterator's remaining elements,
appending the printData text of each element followed by the newline
delimiter. -/
def toStringLoop {α : Type} (pr : α → String) : List α → String
  | [] => ""
  | x :: xs => pr x ++ "\n" ++ toStringLoop pr xs

/-- Modelled from the spec: toString returns NULL (none) when the list
reference itself is NULL; otherwise it concatenates, via an iterator and in
head-to-tail order, the printData text of every element separated by the
newline delimiter, returning the empty string for an empty list. -/
def toString {α : Type} (list : Option (ListHead α)) : Option String :=
  match list with
  | none => none
  | some l => some (toStringLoop l.printData (createIterator l).current)

/-- Modelled from the spec: getLength returns the length counter, and 0 for
a NULL list reference. -/
def getLength {α : Type} (list : Option (ListHead α)) : Int :=
  match list with
  | none => 0
  | some l => l.length

/-- One mutating operation of the ADT, used to quantify over arbitrary
operation sequences. -/
inductive Op (α : Type) where
  | doInsertBack (a : α)
  | doInsertFront (a : α)
  | doInsertSorted (a : α)
  | doDeleteData (a : α)
  | doClear

/-- Applies one operation (with allocation succeeding) to a list state,
discarding returned element handles. -/
def applyOp {α : Type} (list : ListHead α) : Op α → ListHead α
  | .doInsertBack a => insertBack true list a
  | .doInsertFront a => insertFront true list a
  | .doInsertSorted a => insertSorted true list a
  | .doDeleteData a => (deleteDataFromList list a).list
  | .doClear => (clearList list).list

/-- Runs a sequence of operations left to right from a starting state. -/
def runOps {α : Type} (list : ListHead α) (ops : List (Op α)) : ListHead α :=
  ops.foldl applyOp list

/-- The structural invariant: the length counter agrees with the number of
nodes in the chain. -/
def wf {α : Type} (l : ListHead α) : Prop :=
  l.length = Int.ofNat l.nodes.length

/-- A concrete comparator on Int, used to instantiate the generic theorems
on concrete inputs. -/
def cmpInt : Int → Int → Int :=
  fun x y => x - y

/-- A concrete formatter on Int, used to instantiate the generic theorems
on concrete inputs. -/
def prInt : Int → String :=
  fun _ => "e"

/-- A concrete destroy behavior on Int, used to instantiate the generic
theorems on concrete inputs. -/
def delInt : Int → Unit :=
  fun _ => ()

/-- A concrete three-element list state over Int. -/
def sample3 : ListHead Int :=
  ⟨[1, 2, 3], 3, delInt, cmpInt, prInt⟩

/-- A concrete operation sequence over Int, exercising every mutating
operation. -/
def opsSample : List (Op Int) :=
  [Op.doInsertBack 1, Op.doInsertFront 2, Op.doInsertSorted 3,
   Op.doDeleteData 2, Op.doClear, Op.doInsertBack 5]

/-
Helper lemmas shared by the claim theorems.
-/

theorem foldl_insertBack_nodes {α : Type} (es : List α) :
    ∀ acc : ListHead α,
      (es.foldl (fun l e => insertBack true l e) acc).nodes =
        acc.nodes ++ es := by
  induction es with
  | nil => intro acc; simp
  | cons e es ih =>
      intro acc
      simp only [List.foldl_cons, ih]
      simp [insertBack, initializeListNode]

theorem foldl_insertFront_nodes {α : Type} (es : List α) :
    ∀ acc : ListHead α,
      (es.foldl (fun l e => insertFront true l e) acc).nodes =
        es.reverse ++ acc.nodes := by
  induction es with
  | nil => intro acc; simp
  | cons e es ih =>
      intro acc
      simp only [List.foldl_cons, ih]
      simp [insertFront, initializeListNode]

theorem drainFuel_fst {α : Type} :
    ∀ (n : Nat) (it : ListIterator α),
      (drainFuel n it).1 = it.current.take n := by
  intro n
  induction n with
  | zero => intro it; simp [drainFuel]
  | succ n ih =>
      intro it
      cases hc : it.current with
      | nil => simp [drainFuel, nextElement, hc]
      | cons x xs => simp [drainFuel, nextElement, hc, ih]

theorem drainFuel_snd {α : Type} :
    ∀ (n : Nat) (it : ListIterator α),
      (drainFuel n it).2.current = it.current.drop n := by
  intro n
  induction n with
  | zero => intro it; simp [drainFuel]
  | succ n ih =>
      intro it
      cases hc : it.current with
      | nil => simp [drainFuel, nextElement, hc]
      | cons x xs => simp [drainFuel, nextElement, hc, ih]

/-- Claim C2: inserting E1..En in order via insertBack into a fresh list and
traversing front-to-back yields exactly E1..En; inserting them via
insertFront yields En..E1. -/
theorem claim_C2 {α : Type} (pr : α → String) (del : α → Unit)
    (cmp : α → α → Int) (es : List α) :
    (drainFuel es.length
      (createIterator
        (es.foldl (fun l e => insertBack true l e)
          (emptyList pr del cmp)))).1 = es ∧
    (drainFuel es.length
      (createIterator
        (es.foldl (fun l e => insertFront true l e)
          (emptyList pr del cmp)))).1 = es.reverse := by
  constructor
  · rw [drainFuel_fst]
    simp [createIterator, foldl_insertBack_nodes, emptyList]
  · rw [drainFuel_fst]
    simp [createIterator, foldl_insertFront_nodes, emptyList]

/-- Witness for C2 at a concrete element sequence over Int. -/
theorem claim_C2_w :
    (drainFuel ([1, 2, 3] : List Int).length
      (createIterator
        (([1, 2, 3] : List Int).foldl (fun l e => insertBack true l e)
          (emptyList prInt delInt cmpInt)))).1 = [1, 2, 3] ∧
    (drainFuel ([1, 2, 3] : List Int).length
      (createIterator
        (([1, 2, 3] : List Int).foldl (fun l e => insertFront true l e)
          (emptyList prInt delInt cmpInt)))).1 = ([1, 2, 3] : List Int).reverse :=
  claim_C2 prInt delInt cmpInt [1, 2, 3]

/-- Claim C6: getFromFront and getFromBack return the failure indicator on
an empty list, and on a non-empty list return the first and last element
respectively, in both cases leaving the list state unchanged. -/
theorem claim_C6 {α : Type} (l : ListHead α) :
    (l.nodes = [] → getFromFront l = (none, l) ∧ getFromBack l = (none, l)) ∧
    (∀ x xs, l.nodes = x :: xs → (getFromFront l).1 = some x) ∧
    (∀ xs x, l.nodes = xs ++ [x] → (getFromBack l).1 = some x) ∧
    (getFromFront l).2 = l ∧
    (getFromBack l).2 = l := by
  refine ⟨?_, ?_, ?_, ?_, ?_⟩
  · intro h
    constructor
    · simp [getFromFront, h]
    · simp [getFromBack, h]
  · intro x xs h
    simp [getFromFront, h]
  · intro xs x h
    simp [getFromBack, h]
  · cases h : l.nodes with
    | nil => simp [getFromFront, h]
    | cons x xs => simp [getFromFront, h]
  · simp [getFromBack]

/-- Witness for C6 at a concrete three-element list over Int. -/
theorem claim_C6_w :
    (getFromFront sample3).1 = some 1 ∧
    (getFromBack sample3).1 = some 3 ∧
    (getFromFront sample3).2 = sample3 ∧
    (getFromBack sample3).2 = sample3 :=
  ⟨(claim_C6 sample3).2.1 1 [2, 3] rfl,
   (claim_C6 sample3).2.2.1 [1, 2] 3 rfl,
   (claim_C6 sample3).2.2.2.1,
   (claim_C6 sample3).2.2.2.2⟩

/-- Claim C9: allocation failure during initializeList, or during node
construction inside an insert operation, is reported as the failure
indicator by the allocating call (NULL from initializeList and from
initializeListNode) and leaves the list with no partial side effects. -/
theorem claim_C9 {α : Type} (pr : α → String) (del : α → Unit)
    (cmp : α → α → Int) (l : ListHead α) (a : α) :
    initializeList false pr del cmp = none ∧
    initializeList true pr del cmp = some (emptyList pr del cmp) ∧
    initializeListNode false a = (none : Option (ListNode α)) ∧
    insertBack false l a = l ∧
    insertFront false l a = l ∧
    insertSorted false l a = l :=
  ⟨rfl, rfl, rfl, rfl, rfl, rfl⟩

/-- Witness for C9 at concrete behaviors and list over Int. -/
theorem claim_C9_w :
    initializeList false prInt delInt cmpInt = none ∧
    initializeList true prInt delInt cmpInt =
      some (emptyList prInt delInt cmpInt) ∧
    initializeListNode false (7 : Int) = (none : Option (ListNode Int)) ∧
    insertBack false sample3 7 = sample3 ∧
    insertFront false sample3 7 = sample3 ∧
    insertSorted false sample3 7 = sample3 :=
  claim_C9 prInt delInt cmpInt sample3 7

/-- Claim C10: insertBack appends at the back and insertFront prepends at
the front, so both preserve the previously stored elements and their
relative order; on a non-empty list insertBack leaves getFromFront
unchanged and insertFront leaves getFromBack unchanged. -/
theorem claim_C10 {α : Type} (l : ListHead α) (a : α) :
    (insertBack true l a).nodes = l.nodes ++ [a] ∧
    (insertFront true l a).nodes = a :: l.nodes ∧
    (l.nodes ≠ [] →
      (getFromFront (insertBack true l a)).1 = (getFromFront l).1) ∧
    (l.nodes ≠ [] →
      (getFromBack (insertFront true l a)).1 = (getFromBack l).1) := by
  refine ⟨?_, ?_, ?_, ?_⟩
  · simp [insertBack, initializeListNode]
  · simp [insertFront, initializeListNode]
  · intro h
    cases hc : l.nodes with
    | nil => exact absurd hc h
    | cons x xs =>
        simp [getFromFront, insertBack, initializeListNode, hc]
  · intro h
    cases hc : l.nodes with
    | nil => exact absurd hc h
    | cons x xs =>
        simp [getFromBack, insertFront, initializeListNode, hc]

/-- Witness for C10 at a concrete non-empty list over Int. -/
theorem claim_C10_w :
    (insertBack true sample3 9).nodes = sample3.nodes ++ [9] ∧
    (getFromFront (insertBack true sample3 9)).1 = (getFromFront sample3).1 ∧
    (getFromBack (insertFront true sample3 9)).1 = (getFromBack sample3).1 :=
  ⟨(claim_C10 sample3 9).1,
   (claim_C10 sample3 9).2.2.1 (by decide),
   (claim_C10 sample3 9).2.2.2 (by decide)⟩

theorem string_join_cons (a : String) (l : List String) :
    String.join (a :: l) = a ++ String.join l := by
  apply String.ext
  simp

theorem toStringLoop_eq_join {α : Type} (pr : α → String) :
    ∀ xs : List α,
      toStringLoop pr xs = String.join (xs.map fun e => pr e ++ "\n") := by
  intro xs
  induction xs with
  | nil => rfl
  | cons x xs ih =>
      simp only [toStringLoop, List.map_cons, string_join_cons, ih,
        String.append_assoc]

/-- Claim C7: toString returns the failure indicator on a NULL list
reference, an element-free representation on a valid empty list, and on a
populated list the formatted text of every element exactly once,
concatenated in head-to-tail order. -/
theorem claim_C7 {α : Type} (l : ListHead α) :
    toString (none : Option (ListHead α)) = none ∧
    (l.nodes = [] → toString (some l) = some "") ∧
    toString (some l) =
      some (String.join (l.nodes.map fun e => l.printData e ++ "\n")) := by
  refine ⟨rfl, ?_, ?_⟩
  · intro h
    simp [toString, createIterator, h, toStringLoop]
  · simp [toString, createIterator, toStringLoop_eq_join]

/-- Witness for C7 at a concrete list over Int. -/
theorem claim_C7_w :
    toString (none : Option (ListHead Int)) = none ∧
    toString (some (emptyList prInt delInt cmpInt)) = some "" ∧
    toString (some sample3) =
      some (String.join (sample3.nodes.map fun e => sample3.printData e ++ "\n")) :=
  ⟨(claim_C7 sample3).1,
   (claim_C7 (emptyList prInt delInt cmpInt)).2.1 rfl,
   (claim_C7 sample3).2.2⟩

/-- Claim C8: clearList leaves the List struct intact with its three bound
behaviors, empties both end references, resets length to 0, passes every
element to the destroy behavior, and is idempotent (a no-op on an
already-empty list). -/
theorem claim_C8 {α : Type} (l : ListHead α) :
    (clearList l).list.nodes = [] ∧
    (clearList l).list.length = 0 ∧
    (clearList l).list.headData = none ∧
    (clearList l).list.tailData = none ∧
    (clearList l).list.printData = l.printData ∧
    (clearList l).list.deleteData = l.deleteData ∧
    (clearList l).list.compare = l.compare ∧
    (clearList l).destroyed = l.nodes ∧
    clearList (clearList l).list = ⟨(clearList l).list, []⟩ ∧
    (l.nodes = [] → l.length = 0 → clearList l = ⟨l, []⟩) := by
  refine ⟨rfl, rfl, rfl, rfl, rfl, rfl, rfl, rfl, rfl, ?_⟩
  intro h1 h2
  cases l with
  | mk nodes len del cmp pr =>
      simp only at h1 h2
      subst h1
      subst h2
      rfl

/-- Witness for C8 at concrete lists over Int. -/
theorem claim_C8_w :
    (clearList sample3).destroyed = sample3.nodes ∧
    clearList (clearList sample3).list = ⟨(clearList sample3).list, []⟩ ∧
    clearList (emptyList prInt delInt cmpInt) =
      ⟨emptyList prInt delInt cmpInt, []⟩ :=
  ⟨(claim_C8 sample3).2.2.2.2.2.2.2.1,
   (claim_C8 sample3).2.2.2.2.2.2.2.2.1,
   (claim_C8 (emptyList prInt delInt cmpInt)).2.2.2.2.2.2.2.2.2 rfl rfl⟩

theorem removeFirstAux_not_found {α : Type} (cmp : α → α → Int) (t : α) :
    ∀ xs : List α, (∀ x ∈ xs, cmp t x ≠ 0) →
      removeFirstAux cmp t xs = (none, xs) := by
  intro xs
  induction xs with
  | nil => intro _; rfl
  | cons x xs ih =>
      intro h
      have hx : cmp t x ≠ 0 := h x (List.mem_cons_self x xs)
      have hrec := ih (fun y hy => h y (List.mem_cons_of_mem x hy))
      simp [removeFirstAux, hx, hrec]

theorem removeFirstAux_found {α : Type} (cmp : α → α → Int) (t : α) :
    ∀ (pre : List α) (x : α) (post : List α),
      (∀ y ∈ pre, cmp t y ≠ 0) → cmp t x = 0 →
      removeFirstAux cmp t (pre ++ x :: post) = (some x, pre ++ post) := by
  intro pre
  induction pre with
  | nil =>
      intro x post _ hx
      simp [removeFirstAux, hx]
  | cons p pre ih =>
      intro x post h hx
      have hp : cmp t p ≠ 0 := h p (List.mem_cons_self p pre)
      have hrec := ih x post (fun y hy => h y (List.mem_cons_of_mem p hy)) hx
      simp [removeFirstAux, hp, hrec]

theorem removeFirstAux_cases {α : Type} (cmp : α → α → Int) (t : α) :
    ∀ xs : List α,
      removeFirstAux cmp t xs = (none, xs) ∨
      (∃ x, (removeFirstAux cmp t xs).1 = some x ∧
        (removeFirstAux cmp t xs).2.length + 1 = xs.length) := by
  intro xs
  induction xs with
  | nil => exact Or.inl rfl
  | cons x xs ih =>
      by_cases hx : cmp t x = 0
      · right
        exact ⟨x, by simp [removeFirstAux, hx]⟩
      · rcases ih with hnone | ⟨y, h1, h2⟩
        · left
          simp [removeFirstAux, hx, hnone]
        · right
          refine ⟨y, ?_, ?_⟩
          · simp [removeFirstAux, hx, h1]
          · simp only [removeFirstAux, if_neg hx]
            simpa using h2

/-- Claim C4: deleteDataFromList returns the failure indicator and leaves
the list unchanged when the list is empty or no element compares equal to
the target; otherwise it unlinks the first node whose element compares
equal, decrements length, returns that node's element handle to the caller,
and passes nothing to the destroy behavior. -/
theorem claim_C4 {α : Type} (l : ListHead α) (t : α) :
    (l.nodes = [] → deleteDataFromList l t = ⟨none, l, []⟩) ∧
    ((∀ x ∈ l.nodes, l.compare t x ≠ 0) →
      deleteDataFromList l t = ⟨none, l, []⟩) ∧
    (∀ pre x post, l.nodes = pre ++ x :: post →
      (∀ y ∈ pre, l.compare t y ≠ 0) → l.compare t x = 0 →
      deleteDataFromList l t =
        ⟨some x, ⟨pre ++ post, l.length - 1,
                  l.deleteData, l.compare, l.printData⟩, []⟩) := by
  refine ⟨?_, ?_, ?_⟩
  · intro h
    simp [deleteDataFromList, h, removeFirstAux]
  · intro h
    simp [deleteDataFromList, removeFirstAux_not_found l.compare t l.nodes h]
  · intro pre x post hsplit hpre hx
    simp [deleteDataFromList, hsplit,
      removeFirstAux_found l.compare t pre x post hpre hx]

/-- Witness for C4: deleting 2 from the concrete list [1, 2, 3] removes the
middle node, returns its element and destroys nothing. -/
theorem claim_C4_w :
    deleteDataFromList sample3 2 =
      ⟨some 2, ⟨[1, 3], sample3.length - 1,
                sample3.deleteData, sample3.compare, sample3.printData⟩, []⟩ :=
  (claim_C4 sample3 2).2.2 [1] 2 [3] rfl (by decide) (by decide)

/-- Claim C5: repeated nextElement calls on a freshly created iterator
return exactly getLength() elements in head-to-tail order, then the failure
indicator on every subsequent call, leaving the exhausted cursor empty;
nextElement on an exhausted cursor is a safe no-op. -/
theorem claim_C5 {α : Type} (l : ListHead α) (h : wf l) (k : Nat) :
    (drainFuel l.nodes.length (createIterator l)).1 = l.nodes ∧
    Int.ofNat (drainFuel l.nodes.length (createIterator l)).1.length =
      getLength (some l) ∧
    (drainFuel (l.nodes.length + k) (createIterator l)).1 = l.nodes ∧
    (drainFuel (l.nodes.length + k) (createIterator l)).2.current = [] ∧
    nextElement (⟨[]⟩ : ListIterator α) =
      (none, (⟨[]⟩ : ListIterator α)) := by
  refine ⟨?_, ?_, ?_, ?_, rfl⟩
  · rw [drainFuel_fst]
    simp [createIterator]
  · rw [drainFuel_fst]
    simp only [createIterator, List.take_length, getLength]
    exact h.symm
  · rw [drainFuel_fst]
    simp [createIterator, List.take_of_length_le (Nat.le_add_right _ _)]
  · rw [drainFuel_snd]
    simp [createIterator, List.drop_eq_nil_of_le (Nat.le_add_right _ _)]

/-- Witness for C5 at a concrete three-element list over Int. -/
theorem claim_C5_w :
    (drainFuel sample3.nodes.length (createIterator sample3)).1 =
      sample3.nodes ∧
    Int.ofNat (drainFuel sample3.nodes.length (createIterator sample3)).1.length =
      getLength (some sample3) ∧
    (drainFuel (sample3.nodes.length + 2) (createIterator sample3)).1 =
      sample3.nodes ∧
    (drainFuel (sample3.nodes.length + 2) (createIterator sample3)).2.current = [] ∧
    nextElement (⟨[]⟩ : ListIterator Int) =
      (none, (⟨[]⟩ : ListIterator Int)) :=
  claim_C5 sample3 (by simp [wf, sample3]) 2

theorem wf_insertBack {α : Type} (l : ListHead α) (a : α) (h : wf l) :
    wf (insertBack true l a) := by
  simp [wf, insertBack, initializeListNode] at h ⊢
  omega

theorem wf_insertFront {α : Type} (l : ListHead α) (a : α) (h : wf l) :
    wf (insertFront true l a) := by
  simp [wf, insertFront, initializeListNode] at h ⊢
  omega

theorem insertSortedAux_perm {α : Type} (cmp : α → α → Int) (a : α) :
    ∀ l : List α, (insertSortedAux cmp a l).Perm (a :: l) := by
  intro l
  induction l with
  | nil => exact List.Perm.refl _
  | cons x xs ih =>
      by_cases hc : cmp a x < 0
      · simp [insertSortedAux, hc]
      · simp only [insertSortedAux, if_neg hc]
        exact (ih.cons x).trans (List.Perm.swap a x xs)

theorem insertSortedAux_length {α : Type} (cmp : α → α → Int) (a : α)
    (l : List α) :
    (insertSortedAux cmp a l).length = l.length + 1 := by
  simpa using (insertSortedAux_perm cmp a l).length_eq

theorem wf_insertSorted {α : Type} (l : ListHead α) (a : α) (h : wf l) :
    wf (insertSorted true l a) := by
  simp [wf, insertSorted, initializeListNode, insertSortedAux_length] at h ⊢
  omega

theorem wf_deleteData {α : Type} (l : ListHead α) (a : α) (h : wf l) :
    wf (deleteDataFromList l a).list := by
  rcases removeFirstAux_cases l.compare a l.nodes with hc | ⟨x, h1, h2⟩
  · simp [deleteDataFromList, hc, h]
  · cases hr : removeFirstAux l.compare a l.nodes with
    | mk fst snd =>
        rw [hr] at h1 h2
        simp only at h1 h2
        simp only [deleteDataFromList, hr, h1, wf, Int.ofNat_eq_coe] at h ⊢
        omega

theorem wf_clear {α : Type} (l : ListHead α) : wf (clearList l).list := by
  simp [wf, clearList]

theorem wf_applyOp {α : Type} (l : ListHead α) (op : Op α) (h : wf l) :
    wf (applyOp l op) := by
  cases op with
  | doInsertBack a => exact wf_insertBack l a h
  | doInsertFront a => exact wf_insertFront l a h
  | doInsertSorted a => exact wf_insertSorted l a h
  | doDeleteData a => exact wf_deleteData l a h
  | doClear => exact wf_clear l

theorem wf_runOps {α : Type} (ops : List (Op α)) :
    ∀ l : ListHead α, wf l → wf (runOps l ops) := by
  induction ops with
  | nil => intro l h; exact h
  | cons op ops ih =>
      intro l h
      exact ih (applyOp l op) (wf_applyOp l op h)

theorem wf_emptyList {α : Type} (pr : α → String) (del : α → Unit)
    (cmp : α → α → Int) : wf (emptyList pr del cmp) := by
  simp [wf, emptyList]

/-- Claim C1: after any sequence of insertBack, insertFront, insertSorted,
deleteDataFromList and clearList operations on a freshly initialized list,
getLength equals the number of elements in the chain; it is 0 exactly when
both end references are empty, otherwise both ends are non-empty; and
forward traversal from the head visits exactly that many elements, ending
at the tail. -/
theorem claim_C1 {α : Type} (pr : α → String) (del : α → Unit)
    (cmp : α → α → Int) (ops : List (Op α)) :
    getLength (some (runOps (emptyList pr del cmp) ops)) =
      Int.ofNat (runOps (emptyList pr del cmp) ops).nodes.length ∧
    (getLength (some (runOps (emptyList pr del cmp) ops)) = 0 ↔
      ((runOps (emptyList pr del cmp) ops).headData = none ∧
       (runOps (emptyList pr del cmp) ops).tailData = none)) ∧
    (getLength (some (runOps (emptyList pr del cmp) ops)) ≠ 0 →
      ((runOps (emptyList pr del cmp) ops).headData ≠ none ∧
       (runOps (emptyList pr del cmp) ops).tailData ≠ none)) ∧
    (drainFuel (runOps (emptyList pr del cmp) ops).nodes.length
      (createIterator (runOps (emptyList pr del cmp) ops))).1 =
      (runOps (emptyList pr del cmp) ops).nodes ∧
    (drainFuel (runOps (emptyList pr del cmp) ops).nodes.length
      (createIterator (runOps (emptyList pr del cmp) ops))).2.current = [] := by
  have hwf : wf (runOps (emptyList pr del cmp) ops) :=
    wf_runOps ops (emptyList pr del cmp) (wf_emptyList pr del cmp)
  refine ⟨?_, ?_, ?_, ?_, ?_⟩
  · simpa [getLength] using hwf
  · cases hn : (runOps (emptyList pr del cmp) ops).nodes with
    | nil =>
        simp [getLength, wf, hn, ListHead.headData, ListHead.tailData] at hwf ⊢
        omega
    | cons x xs =>
        simp [getLength, wf, hn, ListHead.headData, ListHead.tailData] at hwf ⊢
        omega
  · cases hn : (runOps (emptyList pr del cmp) ops).nodes with
    | nil =>
        simp [getLength, wf, hn] at hwf ⊢
        omega
    | cons x xs =>
        simp [getLength, wf, hn, ListHead.headData, ListHead.tailData] at hwf ⊢
  · rw [drainFuel_fst]
    simp [createIterator]
  · rw [drainFuel_snd]
    simp [createIterator]

/-- Witness for C1 at a concrete operation sequence over Int. -/
theorem claim_C1_w :
    getLength (some (runOps (emptyList prInt delInt cmpInt) opsSample)) =
      Int.ofNat (runOps (emptyList prInt delInt cmpInt) opsSample).nodes.length ∧
    (getLength (some (runOps (emptyList prInt delInt cmpInt) opsSample)) = 0 ↔
      ((runOps (emptyList prInt delInt cmpInt) opsSample).headData = none ∧
       (runOps (emptyList prInt delInt cmpInt) opsSample).tailData = none)) ∧
    (getLength (some (runOps (emptyList prInt delInt cmpInt) opsSample)) ≠ 0 →
      ((runOps (emptyList prInt delInt cmpInt) opsSample).headData ≠ none ∧
       (runOps (emptyList prInt delInt cmpInt) opsSample).tailData ≠ none)) ∧
    (drainFuel (runOps (emptyList prInt delInt cmpInt) opsSample).nodes.length
      (createIterator (runOps (emptyList prInt delInt cmpInt) opsSample))).1 =
      (runOps (emptyList prInt delInt cmpInt) opsSample).nodes ∧
    (drainFuel (runOps (emptyList prInt delInt cmpInt) opsSample).nodes.length
      (createIterator (runOps (emptyList prInt delInt cmpInt) opsSample))).2.current = [] :=
  claim_C1 prInt delInt cmpInt opsSample

theorem insertSortedAux_position {α : Type} (cmp : α → α → Int) (a : α) :
    ∀ l : List α,
      insertSortedAux cmp a l =
        l.takeWhile (fun x => !decide (cmp a x < 0)) ++
          a :: l.dropWhile (fun x => !decide (cmp a x < 0)) := by
  intro l
  induction l with
  | nil => rfl
  | cons x xs ih =>
      by_cases hc : cmp a x < 0
      · simp [insertSortedAux, hc, List.takeWhile_cons, List.dropWhile_cons]
      · simp [insertSortedAux, hc, List.takeWhile_cons, List.dropWhile_cons, ih]

theorem pairwise_insertSortedAux {α : Type} (cmp : α → α → Int)
    (hflip : ∀ x y, 0 ≤ cmp x y → cmp y x ≤ 0)
    (htrans : ∀ x y z, cmp x y ≤ 0 → cmp y z ≤ 0 → cmp x z ≤ 0)
    (a : α) :
    ∀ l : List α, l.Pairwise (fun x y => cmp x y ≤ 0) →
      (insertSortedAux cmp a l).Pairwise (fun x y => cmp x y ≤ 0) := by
  intro l
  induction l with
  | nil =>
      intro _
      simp [insertSortedAux]
  | cons x xs ih =>
      intro hp
      rw [List.pairwise_cons] at hp
      obtain ⟨hx, hxs⟩ := hp
      by_cases hc : cmp a x < 0
      · simp only [insertSortedAux, if_pos hc]
        rw [List.pairwise_cons]
        refine ⟨?_, List.pairwise_cons.mpr ⟨hx, hxs⟩⟩
        intro y hy
        rcases List.mem_cons.mp hy with hyx | hy'
        · rw [hyx]
          exact Int.le_of_lt hc
        · exact htrans a x y (Int.le_of_lt hc) (hx y hy')
      · simp only [insertSortedAux, if_neg hc]
        rw [List.pairwise_cons]
        refine ⟨?_, ih hxs⟩
        intro y hy
        have hmem := (insertSortedAux_perm cmp a xs).mem_iff.mp hy
        rcases List.mem_cons.mp hmem with hya | hy'
        · rw [hya]
          exact hflip a x (by omega)
        · exact hx y hy'

theorem pairwise_foldl_insertSorted {α : Type} (cmp : α → α → Int)
    (hflip : ∀ x y, 0 ≤ cmp x y → cmp y x ≤ 0)
    (htrans : ∀ x y z, cmp x y ≤ 0 → cmp y z ≤ 0 → cmp x z ≤ 0) :
    ∀ (es : List α) (acc : ListHead α), acc.compare = cmp →
      acc.nodes.Pairwise (fun x y => cmp x y ≤ 0) →
      ((es.foldl (fun l e => insertSorted true l e) acc).nodes.Pairwise
          (fun x y => cmp x y ≤ 0) ∧
        (es.foldl (fun l e => insertSorted true l e) acc).compare = cmp) := by
  intro es
  induction es with
  | nil => intro acc hcomp hp; exact ⟨hp, hcomp⟩
  | cons e es ih =>
      intro acc hcomp hp
      simp only [List.foldl_cons]
      apply ih
      · simp [insertSorted, initializeListNode, hcomp]
      · simp only [insertSorted, initializeListNode, if_pos]
        simp only [hcomp]
        exact pairwise_insertSortedAux cmp hflip htrans e acc.nodes hp

/-- Claim C3: insertSorted inserts the new element immediately before the
first element (from the front) that it compares strictly less than,
appending at the back when none exists (so elements comparing equal land
after the existing equal ones); consequently any sequence of insertSorted
calls from an empty list yields a chain that is non-decreasing under the
bound compare behavior. -/
theorem claim_C3 {α : Type} (cmp : α → α → Int) (a : α) (l : List α)
    (pr : α → String) (del : α → Unit) (es : List α)
    (hflip : ∀ x y, 0 ≤ cmp x y → cmp y x ≤ 0)
    (htrans : ∀ x y z, cmp x y ≤ 0 → cmp y z ≤ 0 → cmp x z ≤ 0) :
    (insertSorted true ⟨l, Int.ofNat l.length, del, cmp, pr⟩ a).nodes =
      l.takeWhile (fun x => !decide (cmp a x < 0)) ++
        a :: l.dropWhile (fun x => !decide (cmp a x < 0)) ∧
    (es.foldl (fun acc e => insertSorted true acc e)
        (emptyList pr del cmp)).nodes.Pairwise (fun x y => cmp x y ≤ 0) := by
  constructor
  · simp only [insertSorted, initializeListNode, if_pos]
    exact insertSortedAux_position cmp a l
  · exact (pairwise_foldl_insertSorted cmp hflip htrans es
      (emptyList pr del cmp) rfl (by simp [emptyList])).1

/-- Witness for C3 at the subtraction comparator on Int: inserting 2 into
[1, 3] places it between 1 and 3, and folding insertSorted over [3, 1, 2]
yields a non-decreasing chain. -/
theorem claim_C3_w :
    (insertSorted true ⟨[1, 3], Int.ofNat ([1, 3] : List Int).length,
        delInt, cmpInt, prInt⟩ 2).nodes =
      ([1, 3] : List Int).takeWhile (fun x => !decide (cmpInt 2 x < 0)) ++
        2 :: ([1, 3] : List Int).dropWhile (fun x => !decide (cmpInt 2 x < 0)) ∧
    (([3, 1, 2] : List Int).foldl (fun acc e => insertSorted true acc e)
        (emptyList prInt delInt cmpInt)).nodes.Pairwise
      (fun x y => cmpInt x y ≤ 0) :=
  claim_C3 cmpInt 2 [1, 3] prInt delInt [3, 1, 2]
    (fun x y h => by simp [cmpInt] at h ⊢; omega)
    (fun x y z h1 h2 => by simp [cmpInt] at h1 h2 ⊢; omega)

end LinkedList
